import Mathlib

/-!
Verification of the classroom session-controller client.

This file gives a shallow embedding of the client-side classroom logic:
the Svelte stores (`$lib/stores/classroom`), the session controller's
WebSocket message handler and audio playback queue (the classroom page
component), the REST wrappers (`$lib/apis/classroom`) and the voice-bridge
text interceptor (`$lib/services/pipecat`).  Stateful store mutations are
modelled as pure state-transition functions on an explicit controller
state; WebSocket events and local UI commands are explicit step functions.

Modelling notes, recorded once here:
* `id`/`timestamp`/`reaction_counts` fields of chat messages are generated
  from wall-clock time and are referenced by no property below, so the
  `Message` structure omits them.
* Outbound `ws.send` calls are recorded in a `sent` trace list.
* Audio chunks handed to `AudioBufferSourceNode.start` are recorded in a
  `playedChunks` trace list; decoding PCM16 to Float32 is modelled over ℚ
  (every value `k / 32768` with `|k| ≤ 2^15` is exactly representable in
  binary floating point, so ℚ is a faithful model of the computation).
* `new Int16Array(buf)` throws on an odd byte length, so the decoder
  returns an `Option`.
* Asynchronous REST responses are modelled by feeding an explicit
  `HttpResponse` value to the response-handling code of each wrapper.
-/

namespace Classroom

/-- Message role, `'user' | 'assistant'`. -/
inductive Role where
  | user
  | assistant
deriving DecidableEq

/-- Listener playback mode, `'text_and_audio' | 'text_only'`. -/
inductive UserMode where
  | text_and_audio
  | text_only
deriving DecidableEq

/-- Hand-raise status, `'pending' | 'acknowledged' | 'dismissed'`. -/
inductive HrStatus where
  | pending
  | acknowledged
  | dismissed
deriving DecidableEq

/-- A chat message in the classroom transcript (`ClassroomMessage`). -/
structure Message where
  role : Role
  speakerName : String
  content : String
  translated : Bool
  streaming : Bool
  interrupted : Bool
deriving DecidableEq

/-- A hand-raise record (`HandRaise` in `$lib/apis/classroom`). -/
structure HandRaise where
  id : String
  user_id : String
  user_name : String
  question_preview : String
  status : HrStatus
deriving DecidableEq

/-- A room participant (`ClassroomUser`); the `classroomSelf` store holds
the same shape. -/
structure ClassroomUser where
  user_id : String
  name : String
  language : String
  mode : UserMode
  is_speaker : Bool
deriving DecidableEq

/-- Room state (`ClassroomRoom`), restricted to the fields the client
mutates and the properties below mention. -/
structure Room where
  room_id : String
  name : String
  user_count : Nat
  users : List ClassroomUser
  speaker_id : Option String
  speaker_name : Option String
  hand_raises : List HandRaise
  teacher_id : Option String
  current_lesson_topic : Option String
deriving DecidableEq

/-- The `classroomState` view state. -/
inductive CState where
  | lobby
  | joining
  | active
  | history
  | dashboard
  | settings
  | errorState
deriving DecidableEq

/-- Browser `AudioContext` lifecycle state. -/
inductive ACState where
  | closed
  | suspended
  | running
deriving DecidableEq

/-- Outbound WebSocket control commands recorded by the model. -/
inductive OutMsg where
  | handRaiseMsg (question_preview : String)
  | handLowerMsg
  | setModeMsg (mode : UserMode)
deriving DecidableEq

/-- The combined client state: the classroom stores plus the component-local
variables of the session controller (playback queue, poll bookkeeping,
speaker pipeline flag). `roomPollInFlight` counts outstanding `getRoom`
snapshot requests; `playedChunks` traces chunks handed to audio output. -/
structure CtrlState where
  classroomState : CState
  room : Option Room
  self : Option ClassroomUser
  messages : List Message
  wsOpen : Bool
  error : String
  topics : List String
  handRaised : Bool
  lessonTopic : String
  userMode : UserMode
  speakerBotText : String
  audioQueue : List (List ℚ)
  isPlayingAudio : Bool
  audioCtx : ACState
  playedChunks : List (List ℚ)
  pollTimerActive : Bool
  roomPollInFlight : Nat
  roomListPollInFlight : Bool
  teacherStatusPollInFlight : Bool
  speakerPipelineConnected : Bool
  sent : List OutMsg
deriving DecidableEq

/-- The initial (lobby) client state. -/
def initialCtrl : CtrlState where
  classroomState := .lobby
  room := none
  self := none
  messages := []
  wsOpen := false
  error := ""
  topics := []
  handRaised := false
  lessonTopic := ""
  userMode := .text_only
  speakerBotText := ""
  audioQueue := []
  isPlayingAudio := false
  audioCtx := .closed
  playedChunks := []
  pollTimerActive := false
  roomPollInFlight := 0
  roomListPollInFlight := false
  teacherStatusPollInFlight := false
  speakerPipelineConnected := false
  sent := []

/-- Derived store `isSpeaker`: `$room.speaker_id === $self.user_id`
(false when either store is null). -/
def isSpeaker (room : Option Room) (self : Option ClassroomUser) : Bool :=
  match room, self with
  | some r, some s => decide (r.speaker_id = some s.user_id)
  | _, _ => false

/-- Derived store `isTeacher`: `$room.teacher_id === $self.user_id`. -/
def isTeacher (room : Option Room) (self : Option ClassroomUser) : Bool :=
  match room, self with
  | some r, some s => decide (r.teacher_id = some s.user_id)
  | _, _ => false

-- ── Audio decoding and the playback queue ─────────────────────────

/-- One sample of `new Int16Array(buf)`: two bytes, little endian, signed. -/
def toInt16LE (b0 b1 : Nat) : Int :=
  let u := b0 + 256 * b1
  if u < 32768 then (u : Int) else (u : Int) - 65536

/-- The Int16 samples of a byte buffer, consumed pairwise little-endian. -/
def pcmInts : List Nat → List Int
  | b0 :: b1 :: rest => toInt16LE b0 b1 :: pcmInts rest
  | _ => []

/-- `queueAudioChunk`'s conversion of raw PCM16-LE bytes to Float32
samples (`int16[i] / 32768.0`), modelled over ℚ.  `new Int16Array(buf)`
throws a `RangeError` on an odd byte length, hence the `Option`. -/
def decodePcm16 (bytes : List Nat) : Option (List ℚ) :=
  if bytes.length % 2 = 0 then
    some ((pcmInts bytes).map (fun k : ℤ => (k : ℚ) / 32768))
  else
    none

/-- `ensureAudioContext`: recreate a closed context, else keep it;
`resume()` on a suspended context is asynchronous, so synchronously the
context stays suspended. -/
def ensureCtx : ACState → ACState
  | .closed => .running
  | s => s

/-- `playNextChunk`: nothing queued clears `isPlayingAudio`; a suspended
context defers (the resume callback retries later without consuming the
queue); otherwise the head chunk is removed and played. -/
def playNextChunk (st : CtrlState) : CtrlState :=
  match st.audioQueue with
  | [] => { st with isPlayingAudio := false }
  | c :: rest =>
    let ctx := ensureCtx st.audioCtx
    if ctx = .suspended then
      { st with isPlayingAudio := true, audioCtx := ctx }
    else
      { st with isPlayingAudio := true, audioCtx := ctx,
                audioQueue := rest, playedChunks := st.playedChunks ++ [c] }

/-- `stopAudioPlayback`: drop the queue and clear the playing flag. -/
def stopAudioPlayback (st : CtrlState) : CtrlState :=
  { st with audioQueue := [], isPlayingAudio := false }

/-- `queueAudioChunk`: decode, append to the queue, and start draining if
idle.  A decode failure propagates out of the handler, leaving the state
unchanged. -/
def queueAudioChunk (bytes : List Nat) (st : CtrlState) : CtrlState :=
  match decodePcm16 bytes with
  | none => st
  | some chunk =>
    let st1 := { st with audioQueue := st.audioQueue ++ [chunk] }
    if st1.isPlayingAudio then st1 else playNextChunk st1

/-- The binary branch of `ws.onmessage`: binary frames are queued only for
non-speaking listeners in `text_and_audio` mode. -/
def handleBinaryFrame (bytes : List Nat) (st : CtrlState) : CtrlState :=
  if st.userMode = .text_and_audio ∧ isSpeaker st.room st.self = false then
    queueAudioChunk bytes st
  else
    st

-- ── Message-log update functions (`handleWsMessage` cases) ────────

/-- The fresh streaming assistant message created by `bot_text` when no
stream is open. -/
def freshStreamingBot (txt : String) : Message :=
  { role := .assistant, speakerName := "Mira", content := txt,
    translated := false, streaming := true, interrupted := false }

/-- The `bot_text` case: append the fragment to an open streaming
assistant tail, else start a new streaming message. -/
def botTextUpdate (txt : String) (msgs : List Message) : List Message :=
  match msgs.getLast? with
  | some last =>
    if last.role = .assistant ∧ last.streaming = true then
      msgs.dropLast ++ [{ last with content := last.content ++ txt }]
    else
      msgs ++ [freshStreamingBot txt]
  | none => msgs ++ [freshStreamingBot txt]

/-- The `bot_text_complete` case: finalize the streaming tail (taking the
server's final text when non-empty), else append a finalized message when
the event carries text. -/
def botTextCompleteUpdate (txt : String) (intr : Bool) (msgs : List Message) :
    List Message :=
  match msgs.getLast? with
  | some last =>
    if last.role = .assistant ∧ last.streaming = true then
      msgs.dropLast ++
        [{ last with content := if txt = "" then last.content else txt,
                     streaming := false, interrupted := intr }]
    else if txt = "" then msgs
    else
      msgs ++ [{ role := .assistant, speakerName := "Mira", content := txt,
                 translated := false, streaming := false, interrupted := intr }]
  | none =>
    if txt = "" then msgs
    else
      msgs ++ [{ role := .assistant, speakerName := "Mira", content := txt,
                 translated := false, streaming := false, interrupted := intr }]

/-- The `bot_response` case (legacy/voice path): replace an open streaming
tail with the final text, else append a finalized assistant message.
`finalText = data.translated_text || data.text`. -/
def botResponseUpdate (text translated_text : String) (msgs : List Message) :
    List Message :=
  let finalText := if translated_text = "" then text else translated_text
  let isTranslated := translated_text ≠ "" ∧ translated_text ≠ text
  match msgs.getLast? with
  | some last =>
    if last.role = .assistant ∧ last.streaming = true then
      msgs.dropLast ++
        [{ last with content := finalText, streaming := false,
                     translated := decide isTranslated }]
    else
      msgs ++ [{ role := .assistant, speakerName := "Mira", content := finalText,
                 translated := decide isTranslated, streaming := false,
                 interrupted := false }]
  | none =>
    msgs ++ [{ role := .assistant, speakerName := "Mira", content := finalText,
               translated := decide isTranslated, streaming := false,
               interrupted := false }]

/-- Store action `addClassroomMessage`: append a finalized message. -/
def addClassroomMessage (role : Role) (content : String) (speakerName : String)
    (translated : Bool) (st : CtrlState) : CtrlState :=
  { st with messages := st.messages ++
      [{ role := role, speakerName := speakerName, content := content,
         translated := translated, streaming := false, interrupted := false }] }

-- ── The WebSocket JSON message handler ────────────────────────────

/-- One entry of the `joined` acknowledgment's `recent_messages` array,
after the handler's field mapping (`role === 'assistant' ? 'assistant' :
'user'`, `content || ''`, `!!translated`); the generated ids and
timestamps are omitted like the other `Message` bookkeeping fields. -/
structure RecentMessage where
  role : Role
  speaker_name : String
  content : String
  translated : Bool
deriving DecidableEq

/-- The `joined` case's hydration of the shared chat: every entry becomes
a finalized message (the mapping sets no `_streaming` flag). -/
def hydrateRecent (ms : List RecentMessage) : List Message :=
  ms.map fun m =>
    { role := m.role, speakerName := m.speaker_name, content := m.content,
      translated := m.translated, streaming := false, interrupted := false }

/-- Inbound WebSocket messages handled by `handleWsMessage`.  Optional JSON
string fields are modelled as `String` with `""` for an absent value,
matching the `data.x || fallback` accesses in the handler; fields compared
with `??` keep an `Option`.  The `joined` acknowledgment carries the
server's room, the resolved self record, and the recent-messages history
(welcome-toast/name bookkeeping touches no modelled state).
`reaction_update` only touches the omitted reaction counters and is not
modelled; unknown types are ignored by the code and need no
constructor. -/
inductive WsMsg where
  | joined (room : Room) (you : ClassroomUser) (recent_messages : List RecentMessage)
  | tokenChanged (speaker_id : Option String) (speaker_name : Option String)
  | tokenResponse (granted : Bool)
  | userJoined (u : ClassroomUser)
  | userLeft (user_id : String)
  | transcription (text : String) (translated_text : String) (speaker_name : String)
  | botResponse (text : String) (translated_text : String)
  | botText (text : String)
  | botTextComplete (text : String) (interrupted : Bool)
  | botAudioStart
  | botAudioEnd
  | modeChanged (mode : UserMode)
  | handRaisedEv (raise : HandRaise)
  | handLoweredEv (user_id : String)
  | handAcknowledgedEv (raise : HandRaise)
  | handDismissedEv (raise : HandRaise)
  | topicSuggestions (topics : List String)
  | lessonTopicChanged (topic : String)
  | teacherChanged (teacher_id : Option String)
  | kicked (message : String)
  | errorEv (message : String)
deriving DecidableEq

/-- First half of the `token_changed` case: the `classroomRoom.update`
call (`speaker_id = data.speaker_id ?? null`). -/
def tokenChangedRoomStep (sid sname : Option String) (st : CtrlState) : CtrlState :=
  { st with room := st.room.map fun r =>
      { r with speaker_id := sid, speaker_name := sname } }

/-- Second half of the `token_changed` case: the `classroomSelf.update`
call (`is_speaker = s.user_id === (data.speaker_id ?? null)`). -/
def tokenChangedSelfStep (sid : Option String) (st : CtrlState) : CtrlState :=
  { st with self := st.self.map fun s =>
      { s with is_speaker := decide (sid = some s.user_id) } }

/-- `resetClassroom`: reset every classroom store to its initial value and
close/null the WebSocket. -/
def resetClassroom (st : CtrlState) : CtrlState :=
  { st with classroomState := .lobby, room := none, self := none,
            messages := [], error := "", topics := [], handRaised := false,
            lessonTopic := "", wsOpen := false }

/-- `disconnectSpeakerPipeline`: drop the voice bridge and its derived
text state. -/
def disconnectSpeakerPipeline (st : CtrlState) : CtrlState :=
  { st with speakerPipelineConnected := false, speakerBotText := "" }

/-- `handleLeaveRoom`: cancel the poll timer, stop audio, close the audio
context, disconnect the voice bridge and reset all classroom state.
(`refreshRooms` only refreshes the lobby list and touches no modelled
state.) -/
def handleLeaveRoom (st : CtrlState) : CtrlState :=
  let st1 := { st with pollTimerActive := false }
  let st2 := stopAudioPlayback st1
  let st3 := { st2 with audioCtx := .closed }
  let st4 := disconnectSpeakerPipeline st3
  resetClassroom st4

/-- `handleWsMessage`: the `switch (data.type)` dispatcher.  The `joined`
case installs the server's room and self records wholesale, hydrates the
shared chat from `recent_messages`, syncs the local playback mode to the
server-accepted one (always one of the two valid values in the typed
model), and activates the session. -/
def handleWsMessage (msg : WsMsg) (st : CtrlState) : CtrlState :=
  match msg with
  | .joined room you recent_messages =>
    let st1 := { st with room := some room, self := some you,
                         messages := hydrateRecent recent_messages }
    let st2 := { st1 with userMode := you.mode }
    { st2 with classroomState := .active }
  | .tokenChanged sid sname =>
    tokenChangedSelfStep sid (tokenChangedRoomStep sid sname st)
  | .tokenResponse granted =>
    if granted then
      { st with self := st.self.map (fun s => { s with is_speaker := true }) }
    else st
  | .userJoined u =>
    { st with room := st.room.map (fun r =>
        if r.users.any (fun v => decide (v.user_id = u.user_id)) then r
        else { r with users := r.users ++ [u], user_count := r.user_count + 1 }) }
  | .userLeft uid =>
    { st with room := st.room.map (fun r =>
        { r with users := r.users.filter (fun v => decide (v.user_id ≠ uid)),
                 user_count := r.user_count - 1 }) }
  | .transcription text translated_text speaker_name =>
    addClassroomMessage .user (if translated_text = "" then text else translated_text)
      speaker_name (decide (translated_text ≠ "" ∧ translated_text ≠ text)) st
  | .botResponse text translated_text =>
    { st with messages := botResponseUpdate text translated_text st.messages }
  | .botText text =>
    { st with messages := botTextUpdate text st.messages, speakerBotText := text }
  | .botTextComplete text intr =>
    { st with messages := botTextCompleteUpdate text intr st.messages,
              speakerBotText := "" }
  | .botAudioStart =>
    if st.userMode = .text_and_audio ∧ isSpeaker st.room st.self = false then
      { st with audioCtx := ensureCtx st.audioCtx }
    else st
  | .botAudioEnd => st
  | .modeChanged m =>
    let st1 := { st with self := st.self.map (fun s => { s with mode := m }),
                         userMode := m }
    if m = .text_only then stopAudioPlayback st1 else st1
  | .handRaisedEv raise =>
    { st with room := st.room.map (fun r =>
        if r.hand_raises.any (fun hr => decide (hr.id = raise.id)) then r
        else { r with hand_raises := r.hand_raises ++ [raise] }) }
  | .handLoweredEv uid =>
    let st1 := { st with room := st.room.map (fun r =>
        { r with hand_raises := r.hand_raises.filter fun hr =>
            decide (¬(hr.user_id = uid ∧ hr.status = .pending)) }) }
    if (match st.self with | some s => decide (uid = s.user_id) | none => false) then
      { st1 with handRaised := false }
    else st1
  | .handAcknowledgedEv raise =>
    -- `{ ...hr, ...data.raise }` overrides every field, i.e. yields `raise`.
    let st1 := { st with room := st.room.map (fun r =>
        { r with hand_raises := r.hand_raises.map fun hr =>
            if hr.id = raise.id then raise else hr }) }
    if (match st.self with | some s => decide (raise.user_id = s.user_id) | none => false) then
      { st1 with handRaised := false }
    else st1
  | .handDismissedEv raise =>
    let st1 := { st with room := st.room.map (fun r =>
        { r with hand_raises := r.hand_raises.map fun hr =>
            if hr.id = raise.id then raise else hr }) }
    if (match st.self with | some s => decide (raise.user_id = s.user_id) | none => false) then
      { st1 with handRaised := false }
    else st1
  | .topicSuggestions ts => { st with topics := ts }
  | .lessonTopicChanged topic =>
    { st with lessonTopic := topic,
              room := st.room.map (fun r =>
                { r with current_lesson_topic :=
                    if topic = "" then none else some topic }) }
  | .teacherChanged tid =>
    { st with room := st.room.map (fun r => { r with teacher_id := tid }) }
  | .kicked message =>
    handleLeaveRoom
      { st with error := if message = "" then "You were removed from the room" else message }
  | .errorEv message =>
    { st with error := if message = "" then "Unknown error" else message }

/-- Fold a list of inbound WebSocket messages over the state. -/
def applyWs (msgs : List WsMsg) (st : CtrlState) : CtrlState :=
  msgs.foldl (fun s m => handleWsMessage m s) st

/-- Whether a message is the `joined` acknowledgment, which replaces the
whole room record (hand raises included) with server data. -/
def isJoined : WsMsg → Bool
  | .joined _ _ _ => true
  | _ => false

-- ── Local UI commands ─────────────────────────────────────────────

/-- `handleRaiseHand`: send `hand_raise` and set the local flag (no guard
against an already-raised hand). -/
def handleRaiseHand (question : String) (st : CtrlState) : CtrlState :=
  if st.wsOpen then
    { st with sent := st.sent ++ [.handRaiseMsg question], handRaised := true }
  else st

/-- `handleLowerHand`: send `hand_lower` and clear the local flag. -/
def handleLowerHand (st : CtrlState) : CtrlState :=
  if st.wsOpen then
    { st with sent := st.sent ++ [.handLowerMsg], handRaised := false }
  else st

/-- The single hand button in `ClassroomActive`: dispatches `lowerHand`
when the hand is already raised, else `raiseHand`. -/
def uiHandButton (st : CtrlState) : CtrlState :=
  if st.handRaised then handleLowerHand st else handleRaiseHand "" st

/-- `handleSetPlaybackMode`: record the preference, flush audio when
switching to text-only, and notify the server. -/
def handleSetPlaybackMode (m : UserMode) (st : CtrlState) : CtrlState :=
  let st1 := { st with userMode := m }
  let st2 := if m = .text_only then stopAudioPlayback st1 else st1
  if st2.wsOpen then { st2 with sent := st2.sent ++ [.setModeMsg m] } else st2

-- ── Polling ───────────────────────────────────────────────────────

/-- The body of the in-room snapshot poll (`setInterval` in
`handleJoinRoom`): start a `getRoom` request whenever active, with no
in-flight check. -/
def roomPollTickStart (st : CtrlState) : CtrlState :=
  if st.classroomState = .active ∧ st.room.isSome then
    { st with roomPollInFlight := st.roomPollInFlight + 1 }
  else st

/-- Completion of a `getRoom` snapshot request:
`classroomRoom.set(updated)` — a full replacement of the room record. -/
def roomPollComplete (fetched : Room) (st : CtrlState) : CtrlState :=
  { st with roomPollInFlight := st.roomPollInFlight - 1, room := some fetched }

/-- The poll timer firing: a cancelled timer (`clearInterval`) never runs
its body. -/
def pollTimerFire (st : CtrlState) : CtrlState :=
  if st.pollTimerActive then roomPollTickStart st else st

/-- The body of `startLobbyPolling`'s interval: skip the tick outside the
lobby or while either previous request is still in flight. -/
def lobbyPollTick (st : CtrlState) : CtrlState :=
  if st.classroomState ≠ .lobby then st
  else if st.roomListPollInFlight ∨ st.teacherStatusPollInFlight then st
  else { st with roomListPollInFlight := true, teacherStatusPollInFlight := true }

-- ── Combined message-log events (WS events plus local appends) ────

/-- An event that can touch the message log: an inbound WebSocket message,
or a locally appended message (`handleSendMessage` and the voice-bridge
subscribers, which all go through `addClassroomMessage`). -/
inductive LogEv where
  | ws (m : WsMsg)
  | localAdd (role : Role) (content : String) (speakerName : String) (translated : Bool)
deriving DecidableEq

/-- Step one `LogEv`. -/
def stepEv (e : LogEv) (st : CtrlState) : CtrlState :=
  match e with
  | .ws m => handleWsMessage m st
  | .localAdd role content speakerName translated =>
    addClassroomMessage role content speakerName translated st

/-- Fold a list of `LogEv` over the state. -/
def applyEvs (evs : List LogEv) (st : CtrlState) : CtrlState :=
  evs.foldl (fun s e => stepEv e s) st

/-- Whether an event appends a message regardless of the log's tail
(`transcription` and local appends). -/
def appendsUnconditionally : LogEv → Bool
  | .ws (.transcription _ _ _) => true
  | .localAdd _ _ _ _ => true
  | _ => false

/-- Every message in the log is finalized. -/
def noStreaming (msgs : List Message) : Prop :=
  ∀ m ∈ msgs, m.streaming = false

/-- The message-log invariant: every non-tail message is finalized (so at
most one message is streaming and it is the tail), and only assistant
messages ever stream. -/
def streamInv (msgs : List Message) : Prop :=
  (∀ m ∈ msgs.dropLast, m.streaming = false) ∧
  (∀ m ∈ msgs, m.streaming = true → m.role = .assistant)

/-- A sequence of events is stream-safe from a state when every event that
appends a message unconditionally arrives while no message is streaming. -/
def SafeSeq : List LogEv → CtrlState → Prop
  | [], _ => True
  | e :: rest, st =>
    (appendsUnconditionally e = true → noStreaming st.messages) ∧
      SafeSeq rest (stepEv e st)

/-- Events whose entire effect is on the message log (the log-mutating
cases of the claim; leaving/kick resets and the `joined` hydration
replace the log wholesale and are excluded). -/
def mutatesLogOnly : LogEv → Bool
  | .ws (.botText _) => true
  | .ws (.botTextComplete _ _) => true
  | .ws (.botResponse _ _) => true
  | .ws (.transcription _ _ _) => true
  | .localAdd _ _ _ _ => true
  | _ => false

-- ── Events the audio queue reacts to (for the playback-flush claim) ──

/-- Events relevant to the playback queue: a binary frame, the playback
chain advancing (`source.onended` → `playNextChunk`), a server
`mode_changed`, and the local playback toggle. -/
inductive AudioEv where
  | bin (bytes : List Nat)
  | playNext
  | wsMode (m : UserMode)
  | setPlayback (m : UserMode)
deriving DecidableEq

/-- Step one `AudioEv`. -/
def stepAudio (e : AudioEv) (st : CtrlState) : CtrlState :=
  match e with
  | .bin bytes => handleBinaryFrame bytes st
  | .playNext => playNextChunk st
  | .wsMode m => handleWsMessage (.modeChanged m) st
  | .setPlayback m => handleSetPlaybackMode m st

/-- Fold a list of `AudioEv` over the state. -/
def applyAudio (es : List AudioEv) (st : CtrlState) : CtrlState :=
  es.foldl (fun s e => stepAudio e s) st

/-- An audio event that does not switch the playback preference back to
`text_and_audio`. -/
def keepsTextOnly : AudioEv → Bool
  | .wsMode .text_and_audio => false
  | .setPlayback .text_and_audio => false
  | _ => true

-- ── The voice-bridge text interceptor (`pipecat.ts`) ──────────────

/-- The text-streaming state of `PipecatClient`: the `currentBotText`
accumulator, the `botTranscript` store, and the two timestamp-trigger
stores modelled as fire counters. -/
structure PipecatTextState where
  currentBotText : String
  botTranscriptText : String
  completeFires : Nat
  interruptedFires : Nat
  userTranscriptText : String
  sessionId : Option String
deriving DecidableEq

/-- JSON messages the WebSocket interceptor reacts to. -/
inductive PcMsg where
  | pcSessionId (sid : String)
  | pcBotText (text : String)
  | pcBotTextComplete (text : String) (interrupted : Bool)
  | pcUserTranscript (text : String) (final : Bool)
deriving DecidableEq

/-- `handleJsonMsg` inside the WebSocket interceptor.  On `bot_text` (with
non-empty text) the fragment is accumulated; on `bot_text_complete` the
final text replaces the accumulator, the matching trigger fires, and the
accumulator resets so the next response starts a fresh block. -/
def handleJsonMsg (msg : PcMsg) (ps : PipecatTextState) : PipecatTextState :=
  match msg with
  | .pcSessionId sid =>
    if sid ≠ "" then { ps with sessionId := some sid } else ps
  | .pcBotText t =>
    if t ≠ "" then
      { ps with currentBotText := ps.currentBotText ++ t,
                botTranscriptText := ps.currentBotText ++ t }
    else ps
  | .pcBotTextComplete t intr =>
    if intr then
      { ps with currentBotText := "", botTranscriptText := t,
                interruptedFires := ps.interruptedFires + 1 }
    else
      { ps with currentBotText := "", botTranscriptText := t,
                completeFires := ps.completeFires + 1 }
  | .pcUserTranscript t _ =>
    if t ≠ "" then { ps with userTranscriptText := t } else ps

-- ── REST wrappers (`$lib/apis/classroom/index.ts`) ────────────────

/-- A JSON value, as parsed by `res.json()`. -/
inductive JVal where
  | jnull
  | jbool (b : Bool)
  | jnum (n : Int)
  | jstr (s : String)
  | jarr (xs : List JVal)
  | jobj (fields : List (String × JVal))

/-- Field lookup on a JSON object (`err.detail`); non-objects have no
fields. -/
def jLookup (j : JVal) (key : String) : Option JVal :=
  match j with
  | .jobj fields => fields.lookup key
  | _ => none

/-- JavaScript truthiness of a JSON value. -/
def jTruthy : JVal → Bool
  | .jnull => false
  | .jbool b => b
  | .jnum n => decide (n ≠ 0)
  | .jstr s => decide (s ≠ "")
  | .jarr _ => true
  | .jobj _ => true

/-- The string `new Error(x)` stores for a JSON detail value.  The
composite cases approximate JavaScript's `String()` coercion; every
theorem below only exercises the string case. -/
def jToMessage : JVal → String
  | .jstr s => s
  | .jnum n => toString n
  | .jbool b => cond b "true" "false"
  | .jnull => "null"
  | .jarr _ => "array"
  | .jobj _ => "[object Object]"

/-- A backend HTTP response as the wrappers observe it: `ok`,
`statusText`, and the parsed JSON body (`none` when `res.json()`
rejects). -/
structure HttpResponse where
  ok : Bool
  statusText : String
  body : Option JVal

/-- The error message of the detail-pattern wrappers on a non-ok
response: `const err = await res.json().catch(() => ({ detail:
res.statusText }))`, then `err.detail || fallback` (a falsy detail is
rejected by `||`). -/
def errDetail (res : HttpResponse) : Option String :=
  let err := match res.body with
    | some j => j
    | none => .jobj [("detail", .jstr res.statusText)]
  match jLookup err "detail" with
  | some v => if jTruthy v then some (jToMessage v) else none
  | none => none

/-- The shared shape of the detail-pattern wrappers (`createRoom`,
`listRooms`, `getRoom`, `updateRoom`, `listRoomMembers`, `deleteRoom`,
`manageToken` and the teacher-workflow calls): throw
`err.detail || fallback` on a non-ok response, else resolve with the
parsed body. -/
def classroomFetchDetail (fallback : String) (res : HttpResponse) :
    Except String JVal :=
  if res.ok then
    match res.body with
    | some j => .ok j
    | none => .error "invalid JSON"
  else
    .error ((errDetail res).getD fallback)

/-- `createRoom`'s response handling. -/
def createRoom (res : HttpResponse) : Except String JVal :=
  classroomFetchDetail "Failed to create room" res

/-- `getRoom`'s response handling. -/
def getRoom (res : HttpResponse) : Except String JVal :=
  classroomFetchDetail "Room not found" res

/-- `manageToken`'s response handling. -/
def manageToken (res : HttpResponse) : Except String JVal :=
  classroomFetchDetail "Token action failed" res

/-- `listSessions`'s response handling: `if (!res.ok) return []`, else
`data.sessions || []` (a non-array truthy `sessions` value is approximated
by `[]`; no theorem exercises that case). -/
def listSessions (res : HttpResponse) : Except String (List JVal) :=
  if !res.ok then .ok []
  else
    match res.body with
    | some j =>
      .ok (match jLookup j "sessions" with
           | some (.jarr xs) => xs
           | _ => [])
    | none => .error "invalid JSON"

/-- `getSession`'s response handling: a fixed message on any non-ok
response, ignoring `detail`. -/
def getSession (res : HttpResponse) : Except String JVal :=
  if !res.ok then .error "Session not found"
  else
    match res.body with
    | some j => .ok j
    | none => .error "invalid JSON"

/-- `getSessionSummary`'s response handling: fixed message, ignoring
`detail`. -/
def getSessionSummary (res : HttpResponse) : Except String JVal :=
  if !res.ok then .error "Failed to get session summary"
  else
    match res.body with
    | some j => .ok j
    | none => .error "invalid JSON"

/-- `getDashboard`'s response handling: fixed message, ignoring
`detail`. -/
def getDashboard (res : HttpResponse) : Except String JVal :=
  if !res.ok then .error "Failed to fetch dashboard"
  else
    match res.body with
    | some j => .ok j
    | none => .error "invalid JSON"

/-- Fold a list of `bot_text` fragments over a message log. -/
def applyBotTexts (fs : List String) (msgs : List Message) : List Message :=
  fs.foldl (fun m t => botTextUpdate t m) msgs

/-- In-order concatenation of a list of streamed fragments. -/
def concatFrags : List String → String
  | [] => ""
  | f :: rest => f ++ concatFrags rest

/-- The log's tail is not an open assistant stream (in particular true of
the empty log and of any fully finalized log). -/
def noStreamTail (msgs : List Message) : Prop :=
  ∀ m, msgs.getLast? = some m → ¬(m.role = .assistant ∧ m.streaming = true)

/-- The room's hand-raise records carry pairwise distinct raise ids. -/
def handIdsNodup (st : CtrlState) : Prop :=
  ∀ r, st.room = some r → (r.hand_raises.map (fun hr => hr.id)).Nodup

-- ────────────────────────────────────────────────────────────────
-- Theorems
-- ────────────────────────────────────────────────────────────────

theorem botTextUpdate_streamTail (l : List Message) (m : Message)
    (h1 : m.role = .assistant) (h2 : m.streaming = true) (txt : String) :
    botTextUpdate txt (l ++ [m]) = l ++ [{ m with content := m.content ++ txt }] := by
  simp [botTextUpdate, List.getLast?_concat, List.dropLast_concat, h1, h2]

theorem botTextUpdate_noTail (msgs : List Message)
    (h : noStreamTail msgs) (txt : String) :
    botTextUpdate txt msgs = msgs ++ [freshStreamingBot txt] := by
  unfold botTextUpdate
  cases hm : msgs.getLast? with
  | none => rfl
  | some last =>
    have := h last hm
    simp [this]

theorem botTextCompleteUpdate_streamTail (l : List Message) (m : Message)
    (h1 : m.role = .assistant) (h2 : m.streaming = true) (txt : String) (intr : Bool) :
    botTextCompleteUpdate txt intr (l ++ [m])
      = l ++ [{ m with content := if txt = "" then m.content else txt,
                       streaming := false, interrupted := intr }] := by
  simp [botTextCompleteUpdate, List.getLast?_concat, List.dropLast_concat, h1, h2]

theorem applyBotTexts_streamTail (fs : List String) :
    ∀ (l : List Message) (m : Message), m.role = .assistant → m.streaming = true →
    applyBotTexts fs (l ++ [m]) = l ++ [{ m with content := m.content ++ concatFrags fs }] := by
  induction fs with
  | nil =>
    intro l m h1 h2
    simp [applyBotTexts, concatFrags]
  | cons f rest ih =>
    intro l m h1 h2
    have step : botTextUpdate f (l ++ [m]) = l ++ [{ m with content := m.content ++ f }] :=
      botTextUpdate_streamTail l m h1 h2 f
    have h3 : applyBotTexts (f :: rest) (l ++ [m])
        = applyBotTexts rest (l ++ [{ m with content := m.content ++ f }]) := by
      simp [applyBotTexts, step]
    rw [h3, ih l { m with content := m.content ++ f } h1 h2]
    simp [concatFrags, String.append_assoc]

theorem applyWs_append (a b : List WsMsg) (st : CtrlState) :
    applyWs (a ++ b) st = applyWs b (applyWs a st) := by
  simp [applyWs, List.foldl_append]

theorem applyWs_botTexts (fs : List String) :
    ∀ (st : CtrlState), (applyWs (fs.map WsMsg.botText) st).messages
      = applyBotTexts fs st.messages := by
  induction fs with
  | nil => intro st; simp [applyWs, applyBotTexts]
  | cons f rest ih =>
    intro st
    simp only [List.map_cons]
    have : applyWs (WsMsg.botText f :: rest.map WsMsg.botText) st
        = applyWs (rest.map WsMsg.botText) (handleWsMessage (.botText f) st) := by
      simp [applyWs]
    rw [this, ih]
    simp [applyBotTexts, handleWsMessage]

/-- C1: for every room state and self record, the derived `isSpeaker` is
true iff the room's `speaker_id` equals the self `user_id`; after a
`token_changed` event the room's `speaker_id` is the event's value, the
stored `is_speaker` flag agrees with the derived value, and the derived
value in the intermediate state (room updated, self not yet) already
equals the final one, so no synchronous reader observes the biconditional
failing. -/
theorem isSpeaker_tokenChanged_consistent
    (st : CtrlState) (r : Room) (s : ClassroomUser) (sid sname : Option String)
    (hr : st.room = some r) (hs : st.self = some s) :
    (∀ (r' : Room) (s' : ClassroomUser),
        isSpeaker (some r') (some s') = true ↔ r'.speaker_id = some s'.user_id) ∧
    (isSpeaker (handleWsMessage (.tokenChanged sid sname) st).room
               (handleWsMessage (.tokenChanged sid sname) st).self = true
       ↔ sid = some s.user_id) ∧
    isSpeaker (tokenChangedRoomStep sid sname st).room
              (tokenChangedRoomStep sid sname st).self
      = isSpeaker (handleWsMessage (.tokenChanged sid sname) st).room
                  (handleWsMessage (.tokenChanged sid sname) st).self ∧
    (∃ s2, (handleWsMessage (.tokenChanged sid sname) st).self = some s2 ∧
       s2.is_speaker
         = isSpeaker (handleWsMessage (.tokenChanged sid sname) st).room
                     (handleWsMessage (.tokenChanged sid sname) st).self) ∧
    (∃ r2, (handleWsMessage (.tokenChanged sid sname) st).room = some r2 ∧
       r2.speaker_id = sid) := by
  refine ⟨fun r' s' => by simp [isSpeaker], ?_, ?_, ?_, ?_⟩ <;>
    simp [handleWsMessage, tokenChangedRoomStep, tokenChangedSelfStep, isSpeaker, hr, hs]

/-- C1 witness: the theorem applied at a concrete active state. -/
theorem isSpeaker_tokenChanged_consistent_witness :
    (isSpeaker
        (handleWsMessage (.tokenChanged (some "u1") (some "Asha"))
          { initialCtrl with
              room := some { room_id := "r1", name := "Room", user_count := 1,
                             users := [], speaker_id := none, speaker_name := none,
                             hand_raises := [], teacher_id := none,
                             current_lesson_topic := none },
              self := some { user_id := "u1", name := "Asha", language := "en",
                             mode := .text_only, is_speaker := false } }).room
        (handleWsMessage (.tokenChanged (some "u1") (some "Asha"))
          { initialCtrl with
              room := some { room_id := "r1", name := "Room", user_count := 1,
                             users := [], speaker_id := none, speaker_name := none,
                             hand_raises := [], teacher_id := none,
                             current_lesson_topic := none },
              self := some { user_id := "u1", name := "Asha", language := "en",
                             mode := .text_only, is_speaker := false } }).self = true
      ↔ (some "u1" : Option String) = some "u1") :=
  (isSpeaker_tokenChanged_consistent _ _ _ (some "u1") (some "Asha") rfl rfl).2.1

/-- C3: applying `bot_text` fragments followed by `bot_text_complete` to a
log with no open stream appends exactly one new assistant message, whose
final content is the concatenation of the fragments (or the
server-supplied final text when non-empty); the initial messages survive
unchanged as a prefix, and no duplicate entries are created. -/
theorem stream_finalizes_single_message
    (st : CtrlState) (fs : List String) (t : String) (i : Bool)
    (hq : noStreamTail st.messages) (hfs : fs ≠ []) :
    (applyWs (fs.map WsMsg.botText ++ [WsMsg.botTextComplete t i]) st).messages
      = st.messages ++
        [{ role := .assistant, speakerName := "Mira",
           content := if t = "" then concatFrags fs else t,
           translated := false, streaming := false, interrupted := i }] := by
  cases fs with
  | nil => exact absurd rfl hfs
  | cons f fs' =>
    rw [applyWs_append]
    have hmid : (applyWs ((f :: fs').map WsMsg.botText) st).messages
        = st.messages ++ [freshStreamingBot (concatFrags (f :: fs'))] := by
      rw [applyWs_botTexts]
      have h0 : applyBotTexts (f :: fs') st.messages
          = applyBotTexts fs' (st.messages ++ [freshStreamingBot f]) := by
        simp [applyBotTexts, botTextUpdate_noTail st.messages hq f]
      rw [h0, applyBotTexts_streamTail fs' st.messages (freshStreamingBot f) rfl rfl]
      simp [freshStreamingBot, concatFrags]
    have hsingle : ∀ s', applyWs [WsMsg.botTextComplete t i] s'
        = handleWsMessage (WsMsg.botTextComplete t i) s' := fun _ => rfl
    have hmsg : ∀ s', (handleWsMessage (WsMsg.botTextComplete t i) s').messages
        = botTextCompleteUpdate t i s'.messages := fun _ => rfl
    rw [hsingle, hmsg, hmid,
        botTextCompleteUpdate_streamTail _ _ rfl rfl t i]
    simp [freshStreamingBot]

/-- C3 witness: the theorem at a two-fragment stream over the empty log. -/
theorem stream_finalizes_single_message_witness :
    (applyWs (["Hel", "lo"].map WsMsg.botText ++ [WsMsg.botTextComplete "" false])
        initialCtrl).messages
      = initialCtrl.messages ++
        [{ role := .assistant, speakerName := "Mira",
           content := if "" = "" then concatFrags ["Hel", "lo"] else "",
           translated := false, streaming := false, interrupted := false }] :=
  stream_finalizes_single_message initialCtrl ["Hel", "lo"] "" false
    (fun m hm => by simp [initialCtrl] at hm) (by simp)

/-- C4: an interrupted `bot_text_complete` finalizes the streaming tail in
place (streaming flag cleared, content fixed), and the next `bot_text`
appends a fresh message instead of touching it; likewise the voice
bridge's interceptor resets its accumulator when it fires
`botResponseInterrupted`, so the next `bot_text` starts a fresh transcript
rather than extending the interrupted one. -/
theorem interruption_finalizes_stream :
    (∀ (l : List Message) (m : Message) (t : String),
        m.role = .assistant → m.streaming = true →
        botTextCompleteUpdate t true (l ++ [m])
          = l ++ [{ m with content := if t = "" then m.content else t,
                           streaming := false, interrupted := true }] ∧
        ∀ t', botTextUpdate t'
            (l ++ [{ m with content := if t = "" then m.content else t,
                            streaming := false, interrupted := true }])
          = (l ++ [{ m with content := if t = "" then m.content else t,
                            streaming := false, interrupted := true }])
            ++ [freshStreamingBot t']) ∧
    (∀ (ps : PipecatTextState) (t : String),
        (handleJsonMsg (.pcBotTextComplete t true) ps).currentBotText = "" ∧
        (handleJsonMsg (.pcBotTextComplete t true) ps).interruptedFires
          = ps.interruptedFires + 1 ∧
        (handleJsonMsg (.pcBotTextComplete t true) ps).botTranscriptText = t ∧
        ∀ t', t' ≠ "" →
          (handleJsonMsg (.pcBotText t')
              (handleJsonMsg (.pcBotTextComplete t true) ps)).botTranscriptText = t') := by
  constructor
  · intro l m t h1 h2
    refine ⟨botTextCompleteUpdate_streamTail l m h1 h2 t true, ?_⟩
    intro t'
    apply botTextUpdate_noTail
    intro m' hm'
    rw [List.getLast?_concat] at hm'
    cases hm'
    simp
  · intro ps t
    refine ⟨rfl, rfl, rfl, ?_⟩
    intro t' ht'
    simp [handleJsonMsg, ht']

/-- C4 witness: the theorem at a concrete interrupted stream. -/
theorem interruption_finalizes_stream_witness :
    botTextCompleteUpdate "" true ([] ++ [freshStreamingBot "Hi"])
      = [] ++ [{ freshStreamingBot "Hi" with
                   content := if "" = "" then (freshStreamingBot "Hi").content else "",
                   streaming := false, interrupted := true }] ∧
    (handleJsonMsg (.pcBotText "Next")
        (handleJsonMsg (.pcBotTextComplete "Hi" true)
          { currentBotText := "Hi", botTranscriptText := "Hi",
            completeFires := 0, interruptedFires := 0,
            userTranscriptText := "", sessionId := none })).botTranscriptText
      = "Next" :=
  ⟨(interruption_finalizes_stream.1 [] (freshStreamingBot "Hi") "" rfl rfl).1,
   (interruption_finalizes_stream.2
      { currentBotText := "Hi", botTranscriptText := "Hi",
        completeFires := 0, interruptedFires := 0,
        userTranscriptText := "", sessionId := none } "Hi").2.2.2 "Next" (by simp)⟩

theorem streamInv_nil : streamInv [] := by
  constructor <;> intro m hm <;> simp at hm

theorem streamInv_concat (l : List Message) (m : Message) :
    streamInv (l ++ [m]) ↔
      (∀ x ∈ l, x.streaming = false) ∧ (m.streaming = true → m.role = .assistant) := by
  constructor
  · rintro ⟨h1, h2⟩
    refine ⟨fun x hx => h1 x (by simp [List.dropLast_concat, hx]), fun hm => h2 m (by simp) hm⟩
  · rintro ⟨h1, h2⟩
    refine ⟨fun x hx => h1 x (by simpa [List.dropLast_concat] using hx), ?_⟩
    intro x hx hs
    rcases List.mem_append.mp hx with h | h
    · exact absurd hs (by simp [h1 x h])
    · simp only [List.mem_singleton] at h
      subst h
      exact h2 hs

theorem streamInv_appendFinal (msgs : List Message) (m : Message)
    (hns : noStreaming msgs) (hm : m.streaming = false) :
    streamInv (msgs ++ [m]) :=
  (streamInv_concat msgs m).mpr
    ⟨fun x hx => hns x hx, fun h => absurd h (by simp [hm])⟩

theorem last_streaming_false (ys : List Message) (last : Message)
    (h : streamInv (ys ++ [last]))
    (hc : ¬(last.role = .assistant ∧ last.streaming = true)) :
    last.streaming = false := by
  by_cases hs : last.streaming = true
  · exact absurd ⟨((streamInv_concat ys last).mp h).2 hs, hs⟩ hc
  · simpa using hs

theorem streamInv_botTextUpdate (t : String) (msgs : List Message)
    (h : streamInv msgs) : streamInv (botTextUpdate t msgs) := by
  cases hm : msgs.getLast? with
  | none =>
    rw [List.getLast?_eq_none_iff] at hm
    subst hm
    rw [botTextUpdate_noTail [] (fun m hm' => by simp at hm') t]
    exact (streamInv_concat [] _).mpr ⟨fun x hx => by simp at hx, fun _ => rfl⟩
  | some last =>
    obtain ⟨ys, rfl⟩ := List.getLast?_eq_some_iff.mp hm
    by_cases hc : last.role = .assistant ∧ last.streaming = true
    · rw [botTextUpdate_streamTail ys last hc.1 hc.2 t]
      exact (streamInv_concat ys _).mpr
        ⟨((streamInv_concat ys last).mp h).1, fun _ => hc.1⟩
    · rw [botTextUpdate_noTail (ys ++ [last])
          (fun m hm' => by rw [List.getLast?_concat] at hm'; cases hm'; exact hc) t]
      refine (streamInv_concat (ys ++ [last]) _).mpr ⟨?_, fun _ => rfl⟩
      intro x hx
      rcases List.mem_append.mp hx with h1 | h1
      · exact ((streamInv_concat ys last).mp h).1 x h1
      · simp only [List.mem_singleton] at h1
        subst h1
        exact last_streaming_false ys x h hc

theorem botTextCompleteUpdate_noTail (msgs : List Message)
    (h : noStreamTail msgs) (txt : String) (intr : Bool) :
    botTextCompleteUpdate txt intr msgs
      = if txt = "" then msgs
        else msgs ++ [{ role := .assistant, speakerName := "Mira", content := txt,
                        translated := false, streaming := false, interrupted := intr }] := by
  unfold botTextCompleteUpdate
  cases hm : msgs.getLast? with
  | none => rfl
  | some last => simp [h last hm]

theorem botResponseUpdate_streamTail (l : List Message) (m : Message)
    (h1 : m.role = .assistant) (h2 : m.streaming = true) (text translated_text : String) :
    botResponseUpdate text translated_text (l ++ [m])
      = l ++ [{ m with content := if translated_text = "" then text else translated_text,
                       streaming := false,
                       translated := decide (translated_text ≠ "" ∧ translated_text ≠ text) }] := by
  simp [botResponseUpdate, List.getLast?_concat, List.dropLast_concat, h1, h2]

theorem botResponseUpdate_noTail (msgs : List Message)
    (h : noStreamTail msgs) (text translated_text : String) :
    botResponseUpdate text translated_text msgs
      = msgs ++ [{ role := .assistant, speakerName := "Mira",
                   content := if translated_text = "" then text else translated_text,
                   translated := decide (translated_text ≠ "" ∧ translated_text ≠ text),
                   streaming := false, interrupted := false }] := by
  unfold botResponseUpdate
  cases hm : msgs.getLast? with
  | none => rfl
  | some last => simp [h last hm]

theorem streamInv_botTextCompleteUpdate (t : String) (intr : Bool) (msgs : List Message)
    (h : streamInv msgs) : streamInv (botTextCompleteUpdate t intr msgs) := by
  cases hm : msgs.getLast? with
  | none =>
    rw [List.getLast?_eq_none_iff] at hm
    subst hm
    rw [botTextCompleteUpdate_noTail [] (fun m hm' => by simp at hm') t intr]
    split
    · exact streamInv_nil
    · exact (streamInv_concat [] _).mpr ⟨fun x hx => by simp at hx, fun hs => by simp at hs⟩
  | some last =>
    obtain ⟨ys, rfl⟩ := List.getLast?_eq_some_iff.mp hm
    by_cases hc : last.role = .assistant ∧ last.streaming = true
    · rw [botTextCompleteUpdate_streamTail ys last hc.1 hc.2 t intr]
      exact (streamInv_concat ys _).mpr
        ⟨((streamInv_concat ys last).mp h).1, fun hs => by simp at hs⟩
    · rw [botTextCompleteUpdate_noTail (ys ++ [last])
          (fun m hm' => by rw [List.getLast?_concat] at hm'; cases hm'; exact hc) t intr]
      split
      · exact h
      · refine (streamInv_concat (ys ++ [last]) _).mpr ⟨?_, fun hs => by simp at hs⟩
        intro x hx
        rcases List.mem_append.mp hx with h1 | h1
        · exact ((streamInv_concat ys last).mp h).1 x h1
        · simp only [List.mem_singleton] at h1
          subst h1
          exact last_streaming_false ys x h hc

theorem streamInv_botResponseUpdate (text translated_text : String) (msgs : List Message)
    (h : streamInv msgs) : streamInv (botResponseUpdate text translated_text msgs) := by
  cases hm : msgs.getLast? with
  | none =>
    rw [List.getLast?_eq_none_iff] at hm
    subst hm
    rw [botResponseUpdate_noTail [] (fun m hm' => by simp at hm') text translated_text]
    exact (streamInv_concat [] _).mpr ⟨fun x hx => by simp at hx, fun hs => by simp at hs⟩
  | some last =>
    obtain ⟨ys, rfl⟩ := List.getLast?_eq_some_iff.mp hm
    by_cases hc : last.role = .assistant ∧ last.streaming = true
    · rw [botResponseUpdate_streamTail ys last hc.1 hc.2 text translated_text]
      exact (streamInv_concat ys _).mpr
        ⟨((streamInv_concat ys last).mp h).1, fun hs => by simp at hs⟩
    · rw [botResponseUpdate_noTail (ys ++ [last])
          (fun m hm' => by rw [List.getLast?_concat] at hm'; cases hm'; exact hc)
          text translated_text]
      refine (streamInv_concat (ys ++ [last]) _).mpr ⟨?_, fun hs => by simp at hs⟩
      intro x hx
      rcases List.mem_append.mp hx with h1 | h1
      · exact ((streamInv_concat ys last).mp h).1 x h1
      · simp only [List.mem_singleton] at h1
        subst h1
        exact last_streaming_false ys x h hc

theorem streamInv_hydrate (recent : List RecentMessage) :
    streamInv (hydrateRecent recent) := by
  have hall : ∀ m ∈ hydrateRecent recent, m.streaming = false := by
    intro m hm
    obtain ⟨a, _, rfl⟩ := List.mem_map.mp hm
    rfl
  constructor
  · intro m hm
    exact hall m (List.dropLast_subset _ hm)
  · intro m hm hs
    rw [hall m hm] at hs
    cases hs

theorem streamInv_step (e : LogEv) (st : CtrlState)
    (hinv : streamInv st.messages)
    (hadd : appendsUnconditionally e = true → noStreaming st.messages) :
    streamInv (stepEv e st).messages := by
  cases e with
  | localAdd role content sp tr =>
    exact streamInv_appendFinal st.messages _ (hadd rfl) rfl
  | ws m =>
    cases m with
    | joined room you recent => exact streamInv_hydrate recent
    | transcription a b c => exact streamInv_appendFinal st.messages _ (hadd rfl) rfl
    | botText t => exact streamInv_botTextUpdate t st.messages hinv
    | botTextComplete t i => exact streamInv_botTextCompleteUpdate t i st.messages hinv
    | botResponse t tt => exact streamInv_botResponseUpdate t tt st.messages hinv
    | kicked msg => exact streamInv_nil
    | tokenChanged sid sname => exact hinv
    | tokenResponse g => cases g <;> exact hinv
    | userJoined u => exact hinv
    | userLeft uid => exact hinv
    | botAudioStart =>
      simp only [stepEv, handleWsMessage]
      split <;> exact hinv
    | botAudioEnd => exact hinv
    | modeChanged mo => cases mo <;> exact hinv
    | handRaisedEv raise => exact hinv
    | handLoweredEv uid =>
      simp only [stepEv, handleWsMessage]
      split <;> exact hinv
    | handAcknowledgedEv raise =>
      simp only [stepEv, handleWsMessage]
      split <;> exact hinv
    | handDismissedEv raise =>
      simp only [stepEv, handleWsMessage]
      split <;> exact hinv
    | topicSuggestions ts => exact hinv
    | lessonTopicChanged topic => exact hinv
    | teacherChanged tid => exact hinv
    | errorEv msg => exact hinv

theorem streamInv_applyEvs (evs : List LogEv) :
    ∀ (st : CtrlState), streamInv st.messages → SafeSeq evs st →
    streamInv (applyEvs evs st).messages := by
  induction evs with
  | nil => intro st h _; exact h
  | cons e rest ih =>
    intro st h hsafe
    exact ih (stepEv e st) (streamInv_step e st h hsafe.1) hsafe.2

theorem exists_dropLast_extension (msgs tail : List Message) :
    ∃ tl, msgs ++ tail = msgs.dropLast ++ tl := by
  cases hm : msgs.getLast? with
  | none =>
    rw [List.getLast?_eq_none_iff] at hm
    subst hm
    exact ⟨tail, by simp⟩
  | some last =>
    obtain ⟨ys, rfl⟩ := List.getLast?_eq_some_iff.mp hm
    exact ⟨[last] ++ tail, by simp [List.dropLast_concat]⟩

theorem dropLast_persists (e : LogEv) (st : CtrlState) (h : mutatesLogOnly e = true) :
    ∃ tl, (stepEv e st).messages = st.messages.dropLast ++ tl := by
  cases e with
  | localAdd role content sp tr => exact exists_dropLast_extension st.messages _
  | ws m =>
    cases m with
    | joined room you recent => cases h
    | transcription a b c => exact exists_dropLast_extension st.messages _
    | botText t =>
      show ∃ tl, botTextUpdate t st.messages = st.messages.dropLast ++ tl
      cases hm : st.messages.getLast? with
      | none =>
        rw [List.getLast?_eq_none_iff] at hm
        rw [botTextUpdate_noTail st.messages (fun m hm' => by rw [hm] at hm'; cases hm') t]
        rw [hm]
        exact ⟨[freshStreamingBot t], by simp⟩
      | some last =>
        obtain ⟨ys, hys⟩ := List.getLast?_eq_some_iff.mp hm
        rw [hys]
        by_cases hc : last.role = .assistant ∧ last.streaming = true
        · rw [botTextUpdate_streamTail ys last hc.1 hc.2 t]
          exact ⟨_, by rw [List.dropLast_concat]⟩
        · rw [botTextUpdate_noTail (ys ++ [last])
              (fun m hm' => by rw [List.getLast?_concat] at hm'; cases hm'; exact hc) t]
          exact ⟨[last, freshStreamingBot t], by simp [List.dropLast_concat]⟩
    | botTextComplete t i =>
      show ∃ tl, botTextCompleteUpdate t i st.messages = st.messages.dropLast ++ tl
      cases hm : st.messages.getLast? with
      | none =>
        rw [List.getLast?_eq_none_iff] at hm
        rw [hm]
        exact ⟨botTextCompleteUpdate t i [], by simp⟩
      | some last =>
        obtain ⟨ys, hys⟩ := List.getLast?_eq_some_iff.mp hm
        rw [hys]
        by_cases hc : last.role = .assistant ∧ last.streaming = true
        · rw [botTextCompleteUpdate_streamTail ys last hc.1 hc.2 t i]
          exact ⟨_, by rw [List.dropLast_concat]⟩
        · rw [botTextCompleteUpdate_noTail (ys ++ [last])
              (fun m hm' => by rw [List.getLast?_concat] at hm'; cases hm'; exact hc) t i]
          split
          · exact ⟨[last], by simp [List.dropLast_concat]⟩
          · exact ⟨[last] ++
              [{ role := .assistant, speakerName := "Mira", content := t,
                 translated := false, streaming := false, interrupted := i }],
              by simp [List.dropLast_concat]⟩
    | botResponse t tt =>
      show ∃ tl, botResponseUpdate t tt st.messages = st.messages.dropLast ++ tl
      cases hm : st.messages.getLast? with
      | none =>
        rw [List.getLast?_eq_none_iff] at hm
        rw [hm]
        exact ⟨botResponseUpdate t tt [], by simp⟩
      | some last =>
        obtain ⟨ys, hys⟩ := List.getLast?_eq_some_iff.mp hm
        rw [hys]
        by_cases hc : last.role = .assistant ∧ last.streaming = true
        · rw [botResponseUpdate_streamTail ys last hc.1 hc.2 t tt]
          exact ⟨_, by rw [List.dropLast_concat]⟩
        · rw [botResponseUpdate_noTail (ys ++ [last])
              (fun m hm' => by rw [List.getLast?_concat] at hm'; cases hm'; exact hc) t tt]
          exact ⟨[last] ++
            [{ role := .assistant, speakerName := "Mira",
               content := if tt = "" then t else tt,
               translated := decide (tt ≠ "" ∧ tt ≠ t),
               streaming := false, interrupted := false }],
            by simp [List.dropLast_concat]⟩
    | tokenChanged sid sname => cases h
    | tokenResponse g => cases h
    | userJoined u => cases h
    | userLeft uid => cases h
    | botAudioStart => cases h
    | botAudioEnd => cases h
    | modeChanged mo => cases h
    | handRaisedEv raise => cases h
    | handLoweredEv uid => cases h
    | handAcknowledgedEv raise => cases h
    | handDismissedEv raise => cases h
    | topicSuggestions ts => cases h
    | lessonTopicChanged topic => cases h
    | teacherChanged tid => cases h
    | kicked msg => cases h
    | errorEv msg => cases h

/-- C5 counterexample: a `transcription` arriving while a `bot_text`
stream is open appends a user message after the streaming tail; the next
`bot_text` then opens a second streaming message, so the reachable log
holds two messages with the streaming flag set (the claim allows at most
one, at the tail). -/
theorem streaming_tail_counterexample :
    ((applyWs [WsMsg.botText "a",
               WsMsg.transcription "What?" "" "Asha",
               WsMsg.botText "b"] initialCtrl).messages.filter
        (fun m => m.streaming)).length = 2 := by decide

/-- C5 amended: the single-streaming-tail invariant holds for every event
sequence in which unconditional appends (`transcription` and local
message adds) only occur while no message is streaming; and for every
log-mutating event the already-finalized prefix (all messages but the
tail) survives unchanged as a prefix of the new log. -/
theorem streaming_tail_invariant_amended :
    (∀ (evs : List LogEv) (st : CtrlState), streamInv st.messages →
        SafeSeq evs st → streamInv (applyEvs evs st).messages) ∧
    (∀ (e : LogEv) (st : CtrlState), mutatesLogOnly e = true →
        ∃ tl, (stepEv e st).messages = st.messages.dropLast ++ tl) :=
  ⟨fun evs st h hs => streamInv_applyEvs evs st h hs, dropLast_persists⟩

/-- C5 witness: the amended invariant at a concrete safe sequence and a
concrete log-mutating step. -/
theorem streaming_tail_invariant_amended_witness :
    streamInv ((applyEvs [LogEv.ws (WsMsg.botText "a"),
                           LogEv.ws (WsMsg.botTextComplete "" false)]
                  initialCtrl).messages) ∧
    (∃ tl, (stepEv (LogEv.ws (WsMsg.botText "x")) initialCtrl).messages
        = initialCtrl.messages.dropLast ++ tl) :=
  ⟨streaming_tail_invariant_amended.1 _ initialCtrl streamInv_nil
      ⟨fun hx => by simp [appendsUnconditionally] at hx,
       fun hx => by simp [appendsUnconditionally] at hx, trivial⟩,
   streaming_tail_invariant_amended.2 _ initialCtrl rfl⟩

theorem replaceById_ids (raises : List HandRaise) (raise : HandRaise) :
    ((raises.map fun hr => if hr.id = raise.id then raise else hr).map
        (fun hr => hr.id))
      = raises.map (fun hr => hr.id) := by
  rw [List.map_map]
  apply List.map_congr_left
  intro a _
  by_cases ha : a.id = raise.id <;> simp [ha]

theorem handleWsMessage_room_shape (m : WsMsg) (st : CtrlState)
    (hnj : isJoined m = false) :
    (handleWsMessage m st).room = st.room ∨
    (handleWsMessage m st).room = none ∨
    ∃ g : Room → Room, (handleWsMessage m st).room = st.room.map g ∧
      ∀ r, (r.hand_raises.map (fun hr => hr.id)).Nodup →
        ((g r).hand_raises.map (fun hr => hr.id)).Nodup := by
  cases m with
  | joined room you recent => cases hnj
  | tokenChanged sid sname =>
    exact Or.inr (Or.inr ⟨fun r => { r with speaker_id := sid, speaker_name := sname },
      rfl, fun r h => h⟩)
  | tokenResponse g => cases g <;> exact Or.inl rfl
  | userJoined u =>
    refine Or.inr (Or.inr ⟨_, rfl, ?_⟩)
    intro r h
    split <;> exact h
  | userLeft uid =>
    exact Or.inr (Or.inr ⟨_, rfl, fun r h => h⟩)
  | transcription a b c => exact Or.inl rfl
  | botResponse a b => exact Or.inl rfl
  | botText t => exact Or.inl rfl
  | botTextComplete t i => exact Or.inl rfl
  | botAudioStart =>
    refine Or.inl ?_
    simp only [handleWsMessage]
    split <;> rfl
  | botAudioEnd => exact Or.inl rfl
  | modeChanged mo =>
    refine Or.inl ?_
    simp only [handleWsMessage]
    split <;> rfl
  | handRaisedEv raise =>
    refine Or.inr (Or.inr ⟨_, rfl, ?_⟩)
    intro r h
    by_cases hg : r.hand_raises.any (fun hr => decide (hr.id = raise.id)) = true
    · simpa [hg] using h
    · have hnotin : raise.id ∉ r.hand_raises.map (fun hr => hr.id) := by
        intro hmem
        obtain ⟨x, hx, hid⟩ := List.mem_map.mp hmem
        exact hg (List.any_eq_true.mpr ⟨x, hx, by simp [hid]⟩)
      rw [if_neg hg]
      simp only [List.map_append, List.map_cons, List.map_nil]
      rw [List.nodup_append]
      exact ⟨h, List.nodup_singleton _, by
        intro x hx hy
        simp only [List.mem_singleton] at hy
        exact hnotin (hy ▸ hx)⟩
  | handLoweredEv uid =>
    refine Or.inr (Or.inr ⟨fun r =>
        { r with hand_raises := r.hand_raises.filter fun hr =>
            decide (¬(hr.user_id = uid ∧ hr.status = HrStatus.pending)) }, ?_, ?_⟩)
    · simp only [handleWsMessage]
      split <;> rfl
    · intro r h
      exact List.Nodup.sublist (List.Sublist.map _ (List.filter_sublist _)) h
  | handAcknowledgedEv raise =>
    refine Or.inr (Or.inr ⟨fun r =>
        { r with hand_raises := r.hand_raises.map fun hr =>
            if hr.id = raise.id then raise else hr }, ?_, ?_⟩)
    · simp only [handleWsMessage]
      split <;> rfl
    · intro r h
      rw [replaceById_ids r.hand_raises raise]
      exact h
  | handDismissedEv raise =>
    refine Or.inr (Or.inr ⟨fun r =>
        { r with hand_raises := r.hand_raises.map fun hr =>
            if hr.id = raise.id then raise else hr }, ?_, ?_⟩)
    · simp only [handleWsMessage]
      split <;> rfl
    · intro r h
      rw [replaceById_ids r.hand_raises raise]
      exact h
  | topicSuggestions ts => exact Or.inl rfl
  | lessonTopicChanged topic =>
    exact Or.inr (Or.inr ⟨_, rfl, fun r h => h⟩)
  | teacherChanged tid =>
    exact Or.inr (Or.inr ⟨fun r => { r with teacher_id := tid }, rfl, fun r h => h⟩)
  | kicked msg => exact Or.inr (Or.inl rfl)
  | errorEv msg => exact Or.inl rfl

theorem handIdsNodup_step (m : WsMsg) (st : CtrlState)
    (hnj : isJoined m = false)
    (h : handIdsNodup st) : handIdsNodup (handleWsMessage m st) := by
  rcases handleWsMessage_room_shape m st hnj with heq | heq | ⟨g, heq, hg⟩
  · intro r hr
    exact h r (heq ▸ hr)
  · intro r hr
    rw [heq] at hr
    cases hr
  · intro r hr
    rw [heq] at hr
    cases hst : st.room with
    | none => rw [hst] at hr; cases hr
    | some r0 =>
      rw [hst] at hr
      simp only [Option.map_some', Option.some_inj] at hr
      cases hr
      exact hg r0 (h r0 hst)

theorem filter_id_length_le_one (l : List HandRaise) (i : String)
    (h : (l.map (fun hr => hr.id)).Nodup) :
    (l.filter (fun hr => decide (hr.id = i))).length ≤ 1 := by
  induction l with
  | nil => simp
  | cons a l ih =>
    rw [List.map_cons, List.nodup_cons] at h
    by_cases ha : a.id = i
    · have hempty : l.filter (fun hr => decide (hr.id = i)) = [] := by
        rw [List.filter_eq_nil_iff]
        intro x hx
        simp only [decide_eq_true_eq]
        intro hxi
        exact h.1 (List.mem_map.mpr ⟨x, hx, by rw [hxi, ha]⟩)
      simp [List.filter_cons, ha, hempty]
    · simp only [List.filter_cons, ha, decide_False]
      exact ih h.2

/-- C2 counterexample: the `hand_raised` handler deduplicates by raise id
only, so two server raises with distinct ids for the same user leave two
`pending` records for that user in the room state — the claim's
at-most-one-pending-per-user bound fails. -/
theorem pending_hand_raises_counterexample :
    ((applyWs
        [WsMsg.handRaisedEv
            { id := "a", user_id := "u", user_name := "U",
              question_preview := "", status := .pending },
         WsMsg.handRaisedEv
            { id := "b", user_id := "u", user_name := "U",
              question_preview := "", status := .pending }]
        { initialCtrl with
            room := some { room_id := "r1", name := "Room", user_count := 1,
                           users := [], speaker_id := none, speaker_name := none,
                           hand_raises := [], teacher_id := none,
                           current_lesson_topic := none } }).room.map
        (fun r => (r.hand_raises.filter (fun hr =>
            decide (hr.user_id = "u" ∧ hr.status = HrStatus.pending))).length))
      = some 2 := by decide

/-- C2 amended: the client enforces uniqueness per raise id, not per user:
across every sequence of WebSocket events other than `joined` (in
particular across all `hand_raised`/`hand_lowered` sequences) the room's
hand-raise ids stay pairwise distinct, hence at most one record (pending
or otherwise) exists per raise id; a `joined` acknowledgment instead
installs the server's room — hand raises included — verbatim, so the
client-side guarantee does not extend over it; and the single UI hand
button cannot issue a second raise while the local hand flag is set,
because it dispatches `hand_lower` instead (the controller's
`handleRaiseHand` itself is unguarded). -/
theorem hand_raise_dedup_amended :
    (∀ (msgs : List WsMsg) (st : CtrlState),
        (∀ m ∈ msgs, isJoined m = false) → handIdsNodup st →
        handIdsNodup (applyWs msgs st)) ∧
    (∀ (room : Room) (you : ClassroomUser) (recent : List RecentMessage)
        (st : CtrlState),
        (handleWsMessage (.joined room you recent) st).room = some room) ∧
    (∀ (l : List HandRaise) (i : String), (l.map (fun hr => hr.id)).Nodup →
        (l.filter (fun hr => decide (hr.id = i))).length ≤ 1) ∧
    (∀ st : CtrlState, st.handRaised = true → uiHandButton st = handleLowerHand st) := by
  refine ⟨?_, fun room you recent st => rfl, filter_id_length_le_one, ?_⟩
  · intro msgs
    induction msgs with
    | nil => intro st _ h; exact h
    | cons m rest ih =>
      intro st hnj h
      exact ih (handleWsMessage m st) (fun x hx => hnj x (by simp [hx]))
        (handIdsNodup_step m st (hnj m (by simp)) h)
  · intro st h
    simp [uiHandButton, h]

/-- C2 witness: the amended theorem at a concrete event list, a concrete
joined payload, a concrete record list and a raised-hand state. -/
theorem hand_raise_dedup_amended_witness :
    handIdsNodup (applyWs
        [WsMsg.handRaisedEv
            { id := "a", user_id := "u", user_name := "U",
              question_preview := "", status := .pending }]
        initialCtrl) ∧
    (handleWsMessage
        (.joined { room_id := "r1", name := "Room", user_count := 1,
                   users := [], speaker_id := none, speaker_name := none,
                   hand_raises := [], teacher_id := none,
                   current_lesson_topic := none }
          { user_id := "u1", name := "Asha", language := "en",
            mode := .text_only, is_speaker := false } [])
        initialCtrl).room
      = some { room_id := "r1", name := "Room", user_count := 1,
               users := [], speaker_id := none, speaker_name := none,
               hand_raises := [], teacher_id := none,
               current_lesson_topic := none } ∧
    (([({ id := "a", user_id := "u", user_name := "U",
          question_preview := "", status := HrStatus.pending } : HandRaise)].filter
        (fun hr => decide (hr.id = "a"))).length ≤ 1) ∧
    uiHandButton { initialCtrl with handRaised := true }
      = handleLowerHand { initialCtrl with handRaised := true } :=
  ⟨hand_raise_dedup_amended.1 _ initialCtrl (by decide) (fun r hr => by cases hr),
   hand_raise_dedup_amended.2.1 _ _ [] initialCtrl,
   hand_raise_dedup_amended.2.2.1 _ "a" (by decide),
   hand_raise_dedup_amended.2.2.2 _ rfl⟩

theorem setPlaybackMode_textOnly_facts (st : CtrlState) :
    (handleSetPlaybackMode .text_only st).userMode = .text_only ∧
    (handleSetPlaybackMode .text_only st).audioQueue = [] ∧
    (handleSetPlaybackMode .text_only st).playedChunks = st.playedChunks := by
  cases hws : st.wsOpen <;>
    simp [handleSetPlaybackMode, stopAudioPlayback, hws]

theorem audio_step_textOnly (e : AudioEv) (st : CtrlState)
    (he : keepsTextOnly e = true)
    (hm : st.userMode = .text_only) (hq : st.audioQueue = []) :
    (stepAudio e st).userMode = .text_only ∧ (stepAudio e st).audioQueue = [] ∧
      (stepAudio e st).playedChunks = st.playedChunks := by
  cases e with
  | bin bytes =>
    have hid : handleBinaryFrame bytes st = st := by
      unfold handleBinaryFrame
      rw [if_neg]
      rintro ⟨h1, _⟩
      rw [hm] at h1
      cases h1
    simp [stepAudio, hid, hm, hq]
  | playNext =>
    simp [stepAudio, playNextChunk, hq, hm]
  | wsMode m =>
    cases m with
    | text_and_audio => cases he
    | text_only => simp [stepAudio, handleWsMessage, stopAudioPlayback]
  | setPlayback m =>
    cases m with
    | text_and_audio => cases he
    | text_only => exact setPlaybackMode_textOnly_facts st

theorem audio_seq_textOnly (es : List AudioEv) :
    ∀ st : CtrlState, (∀ e ∈ es, keepsTextOnly e = true) →
      st.userMode = .text_only → st.audioQueue = [] →
      (applyAudio es st).userMode = .text_only ∧
      (applyAudio es st).audioQueue = [] ∧
      (applyAudio es st).playedChunks = st.playedChunks := by
  induction es with
  | nil => intro st _ hm hq; exact ⟨hm, hq, rfl⟩
  | cons e rest ih =>
    intro st hes hm hq
    obtain ⟨h1, h2, h3⟩ :=
      audio_step_textOnly e st (hes e (by simp)) hm hq
    obtain ⟨g1, g2, g3⟩ :=
      ih (stepAudio e st) (fun x hx => hes x (by simp [hx])) h1 h2
    exact ⟨g1, g2, g3.trans h3⟩

/-- C6: switching the local playback preference to `text_only` empties the
queue at once without playing anything further; as long as no event
switches back to `text_and_audio`, later binary frames, playback-chain
callbacks and `mode_changed` events leave the queue empty and hand no
chunk to the audio output; and a binary frame arriving in any `text_only`
state is never enqueued (the handler is the identity). -/
theorem playback_flush_on_text_only
    (st : CtrlState) (es : List AudioEv)
    (hes : ∀ e ∈ es, keepsTextOnly e = true) :
    (handleSetPlaybackMode .text_only st).audioQueue = [] ∧
    (handleSetPlaybackMode .text_only st).playedChunks = st.playedChunks ∧
    (applyAudio es (handleSetPlaybackMode .text_only st)).audioQueue = [] ∧
    (applyAudio es (handleSetPlaybackMode .text_only st)).playedChunks
      = st.playedChunks ∧
    (∀ (bytes : List Nat) (st' : CtrlState), st'.userMode = .text_only →
        handleBinaryFrame bytes st' = st') := by
  obtain ⟨f1, f2, f3⟩ := setPlaybackMode_textOnly_facts st
  obtain ⟨g1, g2, g3⟩ :=
    audio_seq_textOnly es (handleSetPlaybackMode .text_only st) hes f1 f2
  refine ⟨f2, f3, g2, by rw [g3, f3], ?_⟩
  intro bytes st' hmode
  unfold handleBinaryFrame
  rw [if_neg]
  rintro ⟨h1, _⟩
  rw [hmode] at h1
  cases h1

/-- C6 witness: the theorem at a concrete queueing state and a concrete
post-switch event list. -/
theorem playback_flush_on_text_only_witness :
    (handleSetPlaybackMode .text_only initialCtrl).audioQueue = [] ∧
    (handleSetPlaybackMode .text_only initialCtrl).playedChunks
      = initialCtrl.playedChunks ∧
    (applyAudio [AudioEv.bin [0, 1], AudioEv.playNext]
        (handleSetPlaybackMode .text_only initialCtrl)).audioQueue = [] ∧
    (applyAudio [AudioEv.bin [0, 1], AudioEv.playNext]
        (handleSetPlaybackMode .text_only initialCtrl)).playedChunks
      = initialCtrl.playedChunks ∧
    (∀ (bytes : List Nat) (st' : CtrlState), st'.userMode = .text_only →
        handleBinaryFrame bytes st' = st') :=
  playback_flush_on_text_only initialCtrl [AudioEv.bin [0, 1], AudioEv.playNext]
    (by decide)

/-- C7: a `kicked` event runs exactly the `handleLeaveRoom` cleanup, and
after `handleLeaveRoom` the poll timer is cancelled (a later timer firing
is a no-op), audio playback is stopped and flushed, the audio context is
closed, the room socket and the voice bridge are down, and every
classroom store is back at its initial lobby value. -/
theorem kicked_runs_leave_cleanup (st : CtrlState) (msg : String) :
    handleWsMessage (.kicked msg) st = handleLeaveRoom st ∧
    (handleLeaveRoom st).pollTimerActive = false ∧
    (handleLeaveRoom st).audioQueue = [] ∧
    (handleLeaveRoom st).isPlayingAudio = false ∧
    (handleLeaveRoom st).audioCtx = .closed ∧
    (handleLeaveRoom st).wsOpen = false ∧
    (handleLeaveRoom st).speakerPipelineConnected = false ∧
    (handleLeaveRoom st).speakerBotText = "" ∧
    (handleLeaveRoom st).classroomState = .lobby ∧
    (handleLeaveRoom st).room = none ∧
    (handleLeaveRoom st).self = none ∧
    (handleLeaveRoom st).messages = [] ∧
    (handleLeaveRoom st).error = "" ∧
    (handleLeaveRoom st).topics = [] ∧
    (handleLeaveRoom st).handRaised = false ∧
    (handleLeaveRoom st).lessonTopic = "" ∧
    pollTimerFire (handleLeaveRoom st) = handleLeaveRoom st :=
  ⟨rfl, rfl, rfl, rfl, rfl, rfl, rfl, rfl, rfl, rfl, rfl, rfl, rfl, rfl, rfl, rfl, rfl⟩

/-- C8 counterexample: the in-room snapshot poll body (the `setInterval`
installed by `handleJoinRoom`) consults no in-flight flag, so firing while
a previous `getRoom` request is still outstanding starts a second,
overlapping snapshot request — refuting the claim that no two
room-snapshot requests ever overlap. -/
theorem room_poll_overlap_counterexample :
    ({ initialCtrl with
        classroomState := .active,
        room := some { room_id := "r1", name := "Room", user_count := 1,
                       users := [], speaker_id := none, speaker_name := none,
                       hand_raises := [], teacher_id := none,
                       current_lesson_topic := none },
        roomPollInFlight := 1 } : CtrlState).roomPollInFlight = 1 ∧
    (roomPollTickStart
        { initialCtrl with
            classroomState := .active,
            room := some { room_id := "r1", name := "Room", user_count := 1,
                           users := [], speaker_id := none, speaker_name := none,
                           hand_raises := [], teacher_id := none,
                           current_lesson_topic := none },
            roomPollInFlight := 1 }).roomPollInFlight = 2 := by
  exact ⟨rfl, by decide⟩

/-- C8 amended: a completed snapshot poll installs the fetched room as a
full replacement of the local record, independent of the previous room;
the lobby list/teacher-status poll skips its tick while a previous
request is in flight; but the in-room snapshot poll has no such guard
(see the counterexample), so overlapping `getRoom` requests are
possible. -/
theorem room_poll_amended :
    (∀ (st : CtrlState) (fetched : Room),
        (roomPollComplete fetched st).room = some fetched) ∧
    (∀ st : CtrlState, st.roomListPollInFlight = true → lobbyPollTick st = st) ∧
    (∀ st : CtrlState, st.teacherStatusPollInFlight = true → lobbyPollTick st = st) := by
  refine ⟨fun st fetched => rfl, ?_, ?_⟩ <;>
    · intro st h
      unfold lobbyPollTick
      split
      · rfl
      · rw [if_pos (by simp [h])]

/-- C8 witness: the amended theorem at a concrete fetched room and a
concrete in-flight lobby state. -/
theorem room_poll_amended_witness :
    (roomPollComplete
        { room_id := "r2", name := "Other", user_count := 0, users := [],
          speaker_id := none, speaker_name := none, hand_raises := [],
          teacher_id := none, current_lesson_topic := none }
        initialCtrl).room
      = some { room_id := "r2", name := "Other", user_count := 0, users := [],
               speaker_id := none, speaker_name := none, hand_raises := [],
               teacher_id := none, current_lesson_topic := none } ∧
    lobbyPollTick { initialCtrl with roomListPollInFlight := true }
      = { initialCtrl with roomListPollInFlight := true } :=
  ⟨room_poll_amended.1 initialCtrl _,
   room_poll_amended.2.1 { initialCtrl with roomListPollInFlight := true } rfl⟩

/-- C9 counterexample: `listSessions` does not follow the detail-or-
fallback error pattern — on a non-ok response whose body carries
`detail = "boom"` it resolves successfully with `[]` instead of failing
with that detail. -/
theorem rest_detail_counterexample :
    listSessions { ok := false, statusText := "Internal Server Error",
                   body := some (.jobj [("detail", .jstr "boom")]) }
      = Except.ok [] ∧
    errDetail { ok := false, statusText := "Internal Server Error",
                body := some (.jobj [("detail", .jstr "boom")]) }
      = some "boom" := by
  exact ⟨rfl, rfl⟩

/-- C9 amended: the room/teacher/token wrappers use the detail-or-fallback
pattern (non-empty string `detail` wins, absent detail falls back to the
wrapper message, a non-JSON body falls back to `statusText`, an ok
response resolves with the parsed body); the session/dashboard wrappers
instead fail with a fixed generic message ignoring `detail`, and
`listSessions` swallows errors entirely, resolving with `[]`. -/
theorem rest_detail_amended :
    (∀ (res : HttpResponse) (fb d : String), res.ok = false →
        errDetail res = some d → classroomFetchDetail fb res = .error d) ∧
    (∀ (res : HttpResponse) (fb : String), res.ok = false →
        errDetail res = none → classroomFetchDetail fb res = .error fb) ∧
    (∀ (res : HttpResponse) (fb : String) (j : JVal), res.ok = true →
        res.body = some j → classroomFetchDetail fb res = .ok j) ∧
    (∀ (res : HttpResponse) (j : JVal) (d : String), res.body = some j →
        jLookup j "detail" = some (.jstr d) → d ≠ "" → errDetail res = some d) ∧
    (∀ res : HttpResponse, res.body = none → res.statusText ≠ "" →
        errDetail res = some res.statusText) ∧
    (∀ res : HttpResponse, res.ok = false →
        createRoom res = .error ((errDetail res).getD "Failed to create room")) ∧
    (∀ res : HttpResponse, res.ok = false → listSessions res = .ok []) ∧
    (∀ res : HttpResponse, res.ok = false →
        getSession res = .error "Session not found") ∧
    (∀ res : HttpResponse, res.ok = false →
        getSessionSummary res = .error "Failed to get session summary") := by
  refine ⟨?_, ?_, ?_, ?_, ?_, ?_, ?_, ?_, ?_⟩
  · intro res fb d hok hd
    simp [classroomFetchDetail, hok, hd]
  · intro res fb hok hd
    simp [classroomFetchDetail, hok, hd]
  · intro res fb j hok hb
    simp [classroomFetchDetail, hok, hb]
  · intro res j d hb hd hne
    simp [errDetail, hb, hd, jTruthy, jToMessage, hne]
  · intro res hb hne
    simp [errDetail, hb, jLookup, jTruthy, jToMessage, hne, List.lookup]
  · intro res hok
    simp [createRoom, classroomFetchDetail, hok]
  · intro res hok
    simp [listSessions, hok]
  · intro res hok
    simp [getSession, hok]
  · intro res hok
    simp [getSessionSummary, hok]

/-- C9 witness: the amended theorem at concrete responses. -/
theorem rest_detail_amended_witness :
    classroomFetchDetail "Failed to create room"
        { ok := false, statusText := "Bad Request",
          body := some (.jobj [("detail", .jstr "Only teachers may create rooms")]) }
      = .error "Only teachers may create rooms" ∧
    classroomFetchDetail "Failed to create room"
        { ok := false, statusText := "Bad Request", body := some (.jobj []) }
      = .error "Failed to create room" ∧
    classroomFetchDetail "Failed to create room"
        { ok := true, statusText := "OK", body := some (.jobj [("room_id", .jstr "r1")]) }
      = .ok (.jobj [("room_id", .jstr "r1")]) ∧
    listSessions { ok := false, statusText := "Server Error", body := none }
      = .ok [] ∧
    getSession { ok := false, statusText := "Not Found", body := none }
      = .error "Session not found" :=
  ⟨rest_detail_amended.1 _ _ "Only teachers may create rooms" rfl rfl,
   rest_detail_amended.2.1 _ _ rfl rfl,
   rest_detail_amended.2.2.1 _ _ _ rfl rfl,
   rest_detail_amended.2.2.2.2.2.2.1 _ rfl,
   rest_detail_amended.2.2.2.2.2.2.2.1 _ rfl⟩

theorem pcmInts_length : ∀ bs : List Nat, (pcmInts bs).length = bs.length / 2
  | [] => by simp [pcmInts]
  | [_] => by simp [pcmInts]
  | b0 :: b1 :: rest => by
    simp only [pcmInts, List.length_cons]
    rw [pcmInts_length rest]
    omega

theorem toInt16LE_bounds (b0 b1 : Nat) (h0 : b0 ≤ 255) (h1 : b1 ≤ 255) :
    -32768 ≤ toInt16LE b0 b1 ∧ toInt16LE b0 b1 ≤ 32767 := by
  unfold toInt16LE
  dsimp only
  split <;> omega

theorem pcmInts_mem_bounds : ∀ bs : List Nat, (∀ b ∈ bs, b ≤ 255) →
    ∀ k ∈ pcmInts bs, -32768 ≤ k ∧ k ≤ 32767
  | [] => by simp [pcmInts]
  | [_] => by simp [pcmInts]
  | b0 :: b1 :: rest => by
    intro hb k hk
    simp only [pcmInts, List.mem_cons] at hk
    rcases hk with rfl | hk
    · exact toInt16LE_bounds b0 b1 (hb b0 (by simp)) (hb b1 (by simp))
    · exact pcmInts_mem_bounds rest (fun b hbm => hb b (by simp [hbm])) k hk

/-- C10: a byte buffer accepted by the playback queue (even length, bytes
in range) decodes to exactly `length / 2` samples, each the little-endian
signed 16-bit value of its byte pair divided by 32768, and every decoded
sample lies in `[-1, 1)`. -/
theorem pcm_decode_bounds (bytes : List Nat)
    (hb : ∀ b ∈ bytes, b ≤ 255) (hlen : bytes.length % 2 = 0) :
    decodePcm16 bytes = some ((pcmInts bytes).map (fun k : ℤ => (k : ℚ) / 32768)) ∧
    (pcmInts bytes).length = bytes.length / 2 ∧
    ∀ q ∈ (pcmInts bytes).map (fun k : ℤ => (k : ℚ) / 32768), -1 ≤ q ∧ q < 1 := by
  refine ⟨by simp [decodePcm16, hlen], pcmInts_length bytes, ?_⟩
  intro q hq
  obtain ⟨kv, hkv, hq2⟩ := List.mem_map.mp hq
  subst hq2
  obtain ⟨hlo, hhi⟩ := pcmInts_mem_bounds bytes hb kv hkv
  have hloq : (-32768 : ℚ) ≤ (kv : ℚ) := by exact_mod_cast hlo
  have hhiq : (kv : ℚ) ≤ 32767 := by exact_mod_cast hhi
  constructor
  · rw [le_div_iff₀ (by norm_num : (0 : ℚ) < 32768)]
    linarith
  · rw [div_lt_iff₀ (by norm_num : (0 : ℚ) < 32768)]
    linarith

/-- C10 witness: the theorem at a concrete four-byte buffer (samples
0x1234 = 4660 and 0xFFFF = -1). -/
theorem pcm_decode_bounds_witness :
    decodePcm16 [52, 18, 255, 255]
      = some ((pcmInts [52, 18, 255, 255]).map (fun k : ℤ => (k : ℚ) / 32768)) ∧
    (pcmInts [52, 18, 255, 255]).length = [52, 18, 255, 255].length / 2 :=
  ⟨(pcm_decode_bounds [52, 18, 255, 255] (by decide) (by decide)).1,
   (pcm_decode_bounds [52, 18, 255, 255] (by decide) (by decide)).2.1⟩

end Classroom
